import Mathlib

/-!
Verification of the Article Structuring & Amendment Reconciliation Engine of the
Arabic-Legal-Platform repository.

The repository contains several revisions of the same parsing pipeline:
`scripts/boe_parser_new.py`, `scripts/extract_all_boe.py` and
`scripts/extract_folder1_laws.py`.  The definitions below are shallow embeddings
of the functions of those scripts, translated branch by branch from the Python
source.  Texts are modelled as `List Char` (Python `str`, one `Char` per code
point, as in Python `len`).  Python `None` is modelled with `Option`.
-/

set_option maxRecDepth 20000

/-! ## Python string primitives -/

/-- Python whitespace (`\s`, `str.strip`, `str.split`) for the ASCII range,
which is the only whitespace occurring in the modelled texts. -/
def isSpacePy (c : Char) : Bool :=
  c = ' ' || c = '\t' || c = '\n' || c = '\r' || c = '\x0b' || c = '\x0c'

/-- Python `str.strip()`. -/
def pyStrip (l : List Char) : List Char :=
  ((l.dropWhile isSpacePy).reverse.dropWhile isSpacePy).reverse

/-- `pre.isPrefixOf l`, Python `str.startswith`. -/
def isPrefixB : List Char → List Char → Bool
  | [], _ => true
  | _ :: _, [] => false
  | a :: x, b :: y => a = b && isPrefixB x y

/-- Python `pat in hay` (substring containment). -/
def containsSub (hay pat : List Char) : Bool :=
  isPrefixB pat hay ||
    match hay with
    | [] => false
    | _ :: t => containsSub t pat

/-- Split a string at every char satisfying `p`, keeping empty pieces
(Python `str.split(sep)` for a one-char separator when `p = (· = sep)`). -/
def splitOnPred (p : Char → Bool) : List Char → List (List Char)
  | [] => [[]]
  | a :: t =>
    if p a then [] :: splitOnPred p t
    else
      match splitOnPred p t with
      | [] => [[a]]
      | x :: xs => (a :: x) :: xs

/-- Join pieces with a one-char separator (`sep.join(xs)`). -/
def joinSep (c : Char) : List (List Char) → List Char
  | [] => []
  | [x] => x
  | x :: y :: xs => x ++ c :: joinSep c (y :: xs)

/-- Python `str.split()` with no argument: maximal non-whitespace runs. -/
def pyWords (l : List Char) : List (List Char) :=
  (splitOnPred isSpacePy l).filter (· ≠ [])

/-- `' '.join(line.split())`: collapse whitespace runs to single spaces. -/
def collapseLine (l : List Char) : List Char :=
  joinSep ' ' (pyWords l)

/-- The line clean-up used by the parsers on extracted text: split on
newlines, collapse whitespace in every line, drop blank lines, re-join
with newlines. -/
def cleanLines (s : List Char) : List Char :=
  joinSep '\n' (((splitOnPred (· = '\n') s).map collapseLine).filter (· ≠ []))

/-- Digits accepted by the parsers (`[٠-٩\d]`): ASCII and Arabic-indic. -/
def isDigitAr (c : Char) : Bool :=
  ('0' ≤ c && c ≤ '9') || ('٠' ≤ c && c ≤ '٩')

/-- Value of one digit, Arabic-indic digits translated to ASCII
(`str.maketrans("٠١٢٣٤٥٦٧٨٩", "0123456789")`). -/
def digitValAr (c : Char) : Nat :=
  if '0' ≤ c && c ≤ '9' then c.toNat - '0'.toNat else c.toNat - '٠'.toNat

/-- Python `int()` on a run of (translated) digits. -/
def parseDigits (l : List Char) : Nat :=
  l.foldl (fun acc c => 10 * acc + digitValAr c) 0

/-- First maximal run of digits in the text (`re.search(r"[٠-٩\d]+", t)`). -/
def firstDigitRun : List Char → Option (List Char)
  | [] => none
  | a :: t =>
    if isDigitAr a then some (a :: t.takeWhile isDigitAr)
    else firstDigitRun t

/-- Chars of the Arabic-letter character class `[أ-ي]` (U+0623–U+064A). -/
def isArabicLetterRange (c : Char) : Bool :=
  'أ' ≤ c && c ≤ 'ي'

/-! ## `boe_parser_new.apply_amendments` (claims C1, C2, C3)

Model of the regex
`rf'{re.escape(para)}\s*-\s*([^\n]+(?:\n(?![أ-ي]+\s*-)[^\n]+)*)'`
searched with `re.search` and spliced with `str.replace(old, new, 1)`.
Only `group(0)` of the match is used by the source. -/

/-- The negative lookahead `(?![أ-ي]+\s*-)`: true when the
look-ahead pattern *does* match (so the continuation must stop). -/
def lookaheadLetters (l : List Char) : Bool :=
  let letters := l.takeWhile isArabicLetterRange
  letters ≠ [] &&
    match (l.drop letters.length).dropWhile isSpacePy with
    | '-' :: _ => true
    | _ => false

/-- The continuation part `(?:\n(?![أ-ي]+\s*-)[^\n]+)*`: greedily consume
further lines that do not start a new lettered paragraph.  Returns the
consumed chars; `fuel` bounds recursion and is called with the input length. -/
def contLinesAux : Nat → List Char → List Char
  | 0, _ => []
  | fuel + 1, l =>
    match l with
    | '\n' :: r =>
      if lookaheadLetters r then []
      else
        let line := r.takeWhile (· ≠ '\n')
        if line = [] then []
        else '\n' :: (line ++ contLinesAux fuel (r.drop line.length))
    | _ => []

/-- Attempt to match the paragraph pattern at the head of `s`; returns
`group(0)` on success.  The `\s*[^\n]+` part after the dash follows the
regex backtracking semantics: with `W` the maximal whitespace run and `L`
the maximal newline-free run after it, the engine consumes `W ++ L` when
`L` is non-empty, and otherwise backtracks to end after the last
non-newline whitespace char of `W` (failing when there is none). -/
def matchParaAt (para s : List Char) : Option (List Char) :=
  if isPrefixB para s then
    let r1 := s.drop para.length
    let ws1 := r1.takeWhile isSpacePy
    match r1.drop ws1.length with
    | '-' :: r2 =>
      let ws2 := r2.takeWhile isSpacePy
      let r3 := r2.drop ws2.length
      let line1 := r3.takeWhile (· ≠ '\n')
      if line1 ≠ [] then
        let rest := r3.drop line1.length
        some (para ++ ws1 ++ '-' :: (ws2 ++ line1 ++ contLinesAux rest.length rest))
      else
        match (ws2.reverse.dropWhile (· = '\n')).reverse with
        | [] => none
        | keep => some (para ++ ws1 ++ '-' :: keep)
    | _ => none
  else none

/-- `re.search`: leftmost position at which the pattern matches. -/
def searchPara (para : List Char) : List Char → Option (List Char)
  | [] => matchParaAt para []
  | a :: t =>
    match matchParaAt para (a :: t) with
    | some m => some m
    | none => searchPara para t

/-- Python `str.replace(old, new, 1)`. -/
def replaceFirst (s old new : List Char) : List Char :=
  if isPrefixB old s then new ++ s.drop old.length
  else
    match s with
    | [] => []
    | a :: t => a :: replaceFirst t old new

/-- One amendment dict as consumed by `apply_amendments`: the keys
`'paragraph'` and `'new_text'` may be absent. -/
structure PyAmendment where
  paragraph : Option (List Char) := none
  new_text : Option (List Char) := none
deriving Repr, DecidableEq

/-- The body of the `for amendment in amendments` loop of
`apply_amendments` (`boe_parser_new.py:616-641`). -/
def amendStep (current : List Char) (a : PyAmendment) : List Char :=
  match a.paragraph, a.new_text with
  | some p, some nt =>
    let para := pyStrip p
    let newText := pyStrip nt
    let startsWithPara :=
      isPrefixB (para ++ (' ' :: ['-'])) newText || isPrefixB (para ++ ['-']) newText
    match searchPara para current with
    | some oldParaFull =>
      let newParaFull :=
        if startsWithPara then newText else para ++ (' ' :: '-' :: ' ' :: newText)
      replaceFirst current oldParaFull newParaFull
    | none => current
  | _, _ => current

/-- `apply_amendments(original_text, amendments)` (`boe_parser_new.py:597-643`).
`none` models Python `None`. -/
def apply_amendments : Option (List Char) → List PyAmendment → Option (List Char)
  | none, _ => none
  | some t, amds =>
    if t = [] then some t
    else if amds = [] then some t
    else some (amds.foldl amendStep t)

/-- Bool form of "this amendment is skipped by the loop": a required key is
missing, or the paragraph pattern is not found in the current text. -/
def isSkipped (current : List Char) (a : PyAmendment) : Bool :=
  match a.paragraph, a.new_text with
  | some p, some _ => (searchPara (pyStrip p) current).isNone
  | _, _ => true

/-- Article current-text assembly of `parse_article`
(`boe_parser_new.py:176-187`): amended articles get the spliced text, all
others keep the original text. -/
inductive ArticleStatus where
  | active
  | amended
  | canceled
deriving Repr, DecidableEq

def articleCurrentText (status : ArticleStatus) (original : Option (List Char))
    (amds : List PyAmendment) : Option (List Char) :=
  if status = .amended then apply_amendments original amds else original

/-! ### Claims C1, C2, C3 -/

/-- C1 (counterexample): on `original_text = "أ- نص قديم\nب- نص آخر"` with the
single amendment `{paragraph: "أ", new_text: "نص جديد"}`, `apply_amendments`
does NOT return the claimed `"أ- نص جديد\nب- نص آخر"`: the replacement is
assembled as `f'{para} - {new_text}'`, with a space on both sides of the
dash. -/
theorem claim_C1_counterexample :
    apply_amendments (some "أ- نص قديم\nب- نص آخر".data)
        [⟨some "أ".data, some "نص جديد".data⟩]
      ≠ some "أ- نص جديد\nب- نص آخر".data ∧
    apply_amendments (some "أ- نص قديم\nب- نص آخر".data)
        [⟨some "أ".data, some "نص جديد".data⟩]
      = some "أ - نص جديد\nب- نص آخر".data := by
  exact ⟨by decide, by decide⟩

/-- C1 (amended): the span from marker "أ" up to the next lettered marker is
replaced by `"أ - "` + new text (space-dash-space, not the bare
marker-dash of the claim); sibling paragraph "ب" is byte-identical to the
input; when `new_text` already begins with the marker it is used as-is, so
the marker is not duplicated; and only the first occurrence of the marker
is replaced. -/
theorem claim_C1_amendment_splice :
    apply_amendments (some "أ- نص قديم\nب- نص آخر".data)
        [⟨some "أ".data, some "نص جديد".data⟩]
      = some "أ - نص جديد\nب- نص آخر".data ∧
    apply_amendments (some "أ- نص قديم\nب- نص آخر".data)
        [⟨some "أ".data, some "أ- نص جديد".data⟩]
      = some "أ- نص جديد\nب- نص آخر".data ∧
    apply_amendments (some "أ- واحد\nج- شيء\nأ- اثنان".data)
        [⟨some "أ".data, some "بديل".data⟩]
      = some "أ - بديل\nج- شيء\nأ- اثنان".data := by
  exact ⟨by decide, by decide, by decide⟩

/-- C2: with an empty amendment list `apply_amendments` is the identity on
every input (including `None` and the empty string), and the article
assembly of `parse_article` gives `text = original_text` whenever the
amendment list is empty, for every status. -/
theorem claim_C2_empty_amendments_identity :
    (∀ orig : Option (List Char), apply_amendments orig [] = orig) ∧
    (∀ (status : ArticleStatus) (orig : Option (List Char)),
      articleCurrentText status orig [] = orig) := by
  have h1 : ∀ orig : Option (List Char), apply_amendments orig [] = orig := by
    intro orig
    cases orig with
    | none => rfl
    | some t =>
      simp only [apply_amendments]
      split
      · rfl
      · rfl
  refine ⟨h1, ?_⟩
  intro status orig
  unfold articleCurrentText
  split
  · exact h1 orig
  · rfl

/-- C3: an amendment lacking the `'paragraph'` key or the `'new_text'` key,
or whose paragraph pattern is not found in the progressively amended text,
leaves the text exactly unchanged; a list made only of such amendments
leaves the whole text unchanged (and the model is a total function: no
exception path exists). -/
theorem claim_C3_conservative_skip :
    (∀ (current : List Char) (a : PyAmendment),
      isSkipped current a = true → amendStep current a = current) ∧
    (∀ (current : List Char) (amds : List PyAmendment),
      (∀ a ∈ amds, isSkipped current a = true) →
      apply_amendments (some current) amds = some current) := by
  have hstep : ∀ (current : List Char) (a : PyAmendment),
      isSkipped current a = true → amendStep current a = current := by
    intro current a h
    unfold isSkipped at h
    unfold amendStep
    cases hp : a.paragraph with
    | none => simp [hp]
    | some p =>
      cases hn : a.new_text with
      | none => simp [hp, hn]
      | some nt =>
        simp only [hp, hn] at h ⊢
        cases hs : searchPara (pyStrip p) current with
        | none => simp [hs]
        | some m => simp [hs] at h
  refine ⟨hstep, ?_⟩
  intro current amds h
  have hfold : ∀ amds : List PyAmendment,
      (∀ a ∈ amds, isSkipped current a = true) →
      amds.foldl amendStep current = current := by
    intro amds
    induction amds with
    | nil => intro _; rfl
    | cons a rest ih =>
      intro hall
      have ha := hstep current a (hall a (List.mem_cons_self a rest))
      simp only [List.foldl_cons, ha]
      exact ih (fun b hb => hall b (List.mem_cons_of_mem a hb))
  simp only [apply_amendments]
  split
  · rfl
  · split
    · rfl
    · rw [hfold amds h]

/-- Witness for C3: a concrete skipped amendment (marker "أ" absent from the
text) leaves the text unchanged. -/
theorem claim_C3_witness :
    isSkipped "نص بلا فقرات".data ⟨some "أ".data, some "جديد".data⟩ = true ∧
    amendStep "نص بلا فقرات".data ⟨some "أ".data, some "جديد".data⟩
      = "نص بلا فقرات".data :=
  ⟨by decide, claim_C3_conservative_skip.1 _ _ (by decide)⟩

/-! ## Numeral/ordinal resolution (claim C4)

Two implementations exist: `extract_article_number`
(`boe_parser_new.py:645-696`) scans a hand-ordered literal table, and
`_arabic_num` (`extract_all_boe.py:70-109`, identical in
`extract_folder1_laws.py`) scans a generated table sorted
longest-string-first. -/

/-- The literal `arabic_numbers` table of `extract_article_number`, in
source order. -/
def arabicNumbersBoe : List (List Char × Nat) :=
  [("الحادية عشرة".data, 11), ("الثانية عشرة".data, 12), ("الثالثة عشرة".data, 13),
   ("الرابعة عشرة".data, 14), ("الخامسة عشرة".data, 15), ("السادسة عشرة".data, 16),
   ("السابعة عشرة".data, 17), ("الثامنة عشرة".data, 18), ("التاسعة عشرة".data, 19),
   ("العشرون".data, 20),
   ("الحادية والعشرون".data, 21), ("الثانية والعشرون".data, 22),
   ("الثالثة والعشرون".data, 23), ("الرابعة والعشرون".data, 24),
   ("الخامسة والعشرون".data, 25), ("السادسة والعشرون".data, 26),
   ("السابعة والعشرون".data, 27), ("الثامنة والعشرون".data, 28),
   ("التاسعة والعشرون".data, 29), ("الثلاثون".data, 30),
   ("الأولى".data, 1), ("الثانية".data, 2), ("الثالثة".data, 3),
   ("الرابعة".data, 4), ("الخامسة".data, 5), ("السادسة".data, 6),
   ("السابعة".data, 7), ("الثامنة".data, 8), ("التاسعة".data, 9),
   ("العاشرة".data, 10)]

/-- First table entry whose word occurs in the text (the
`for word, num in ...: if word in text` scan). -/
def firstContained (table : List (List Char × Nat)) (t : List Char) : Option Nat :=
  match table with
  | [] => none
  | (w, n) :: rest => if containsSub t w then some n else firstContained rest t

/-- `extract_article_number(text)` (`boe_parser_new.py:645-696`). -/
def extract_article_number (text : List Char) : Option Nat :=
  match firstContained arabicNumbersBoe text with
  | some n => some n
  | none =>
    match firstDigitRun text with
    | some run => some (parseDigits run)
    | none => none

/-- `_tens` of `extract_all_boe.py`. -/
def tensAllBoe : List (List Char × Nat) :=
  [("عشر".data, 20), ("ثلاث".data, 30), ("أربع".data, 40), ("خمس".data, 50),
   ("ست".data, 60), ("سبع".data, 70), ("ثمان".data, 80), ("تسع".data, 90),
   ("مائ".data, 100)]

/-- `_ones` of `extract_all_boe.py`. -/
def onesAllBoe : List (List Char × Nat) :=
  [("الحادية".data, 1), ("الثانية".data, 2), ("الثالثة".data, 3),
   ("الرابعة".data, 4), ("الخامسة".data, 5), ("السادسة".data, 6),
   ("السابعة".data, 7), ("الثامنة".data, 8), ("التاسعة".data, 9)]

/-- `_standalone` of `extract_all_boe.py`. -/
def standaloneAllBoe : List (List Char × Nat) :=
  [("العشرون".data, 20), ("الثلاثون".data, 30), ("الأربعون".data, 40),
   ("الخمسون".data, 50), ("الستون".data, 60), ("السبعون".data, 70),
   ("الثمانون".data, 80), ("التسعون".data, 90), ("المائة".data, 100),
   ("العاشرة".data, 10)]

/-- The `_ORDINALS` construction loop before sorting: for each unit, the
teen form (only for the tens value 20) followed by the compound with the
first standalone of matching value, then the standalone forms, then the
bare unit forms. -/
def ordinalsUnsorted : List (List Char × Nat) :=
  (onesAllBoe.flatMap fun o =>
    tensAllBoe.flatMap fun t =>
      (if t.2 = 20 then [(o.1 ++ (' ' :: "عشرة".data), o.2 + 10)] else []) ++
      (match standaloneAllBoe.find? (fun s => s.2 = t.2) with
       | some s => [(o.1 ++ (' ' :: 'و' :: s.1), o.2 + t.2)]
       | none => []))
  ++ standaloneAllBoe
  ++ [("الأولى".data, 1), ("الثانية".data, 2), ("الثالثة".data, 3),
      ("الرابعة".data, 4), ("الخامسة".data, 5), ("السادسة".data, 6),
      ("السابعة".data, 7), ("الثامنة".data, 8), ("التاسعة".data, 9)]

/-- Stable insertion for sorting by decreasing word length
(`_ORDINALS.sort(key=lambda x: -len(x[0]))`, Python sorts are stable). -/
def insertByLenDesc (x : List Char × Nat) :
    List (List Char × Nat) → List (List Char × Nat)
  | [] => [x]
  | y :: ys =>
    if y.1.length ≤ x.1.length then x :: y :: ys else y :: insertByLenDesc x ys

def sortByLenDesc (l : List (List Char × Nat)) : List (List Char × Nat) :=
  l.foldr insertByLenDesc []

/-- `_ORDINALS` after `sort(key=lambda x: -len(x[0]))`. -/
def ordinalsAllBoe : List (List Char × Nat) :=
  sortByLenDesc ordinalsUnsorted

/-- `_arabic_num(text)` (`extract_all_boe.py:97-107`): strip, scan the
sorted ordinal table for a contained word, then fall back to the first
digit run translated to ASCII. -/
def arabic_num : Option (List Char) → Option Nat
  | none => none
  | some text =>
    if text = [] then none
    else
      let t := pyStrip text
      match firstContained ordinalsAllBoe t with
      | some n => some n
      | none =>
        match firstDigitRun t with
        | some run => some (parseDigits run)
        | none => none

/-- Adjacent non-increasing word lengths: the table is scanned
longest-string-first. -/
def lenSortedDesc : List (List Char × Nat) → Bool
  | [] => true
  | [_] => true
  | x :: y :: rest => y.1.length ≤ x.1.length && lenSortedDesc (y :: rest)

/-- C4 (code bug): `extract_article_number` resolves "الثانية والعشرون" to 20,
not 22, because its table lists "العشرون" (20) before the compound
twenty-one … twenty-nine entries, contradicting the function's own
"Order matters! Check longer numbers first" comment — its table is not
sorted longest-first.  `_arabic_num`, whose generated table is sorted
longest-string-first, resolves every value of the claim correctly. -/
theorem claim_C4_ordinal_resolution :
    extract_article_number "الثانية والعشرون".data = some 20 ∧
    lenSortedDesc arabicNumbersBoe = false ∧
    lenSortedDesc ordinalsAllBoe = true ∧
    arabic_num (some "الحادية عشرة".data) = some 11 ∧
    arabic_num (some "الثانية والعشرون".data) = some 22 ∧
    arabic_num (some "المادة الأولى".data) = some 1 ∧
    arabic_num (some "٣٤".data) = some 34 ∧
    arabic_num (some "unrelated text".data) = none := by
  exact ⟨by decide, by decide, by decide, by decide, by decide, by decide,
    by decide, by decide⟩

/-! ## Article status classification (claim C5)

`extract_all_boe.py:429-434` and `extract_folder1_laws.py` use an
`if "canceled" in classes ... elif "changed-article" in classes` cascade;
`boe_parser_new.py:110-116` uses two independent `if` statements, the
second overwriting the first.  The input is the space-joined class string
`' '.join(div.get('class', []))`. -/

/-- Status per `extract_all_boe._parse_article` (if / elif). -/
def statusElif (classes : List Char) : ArticleStatus :=
  if containsSub classes "canceled".data then .canceled
  else if containsSub classes "changed-article".data then .amended
  else .active

/-- Status per `boe_parser_new.parse_article` (two sequential ifs: the
`changed-article` check runs after and overwrites the `canceled` one). -/
def statusBoeNew (classes : List Char) : ArticleStatus :=
  let s1 : ArticleStatus :=
    if containsSub classes "canceled".data then .canceled else .active
  if containsSub classes "changed-article".data then .amended else s1

/-- C5 (counterexample): a subtree whose class markers contain both
"canceled" and "changed-article" is classified `amended`, not `canceled`,
by `boe_parser_new.parse_article`. -/
theorem claim_C5_counterexample :
    statusBoeNew "article_item canceled changed-article".data = .amended ∧
    statusBoeNew "article_item canceled changed-article".data ≠ .canceled ∧
    statusElif "article_item canceled changed-article".data = .canceled := by
  exact ⟨by decide, by decide, by decide⟩

/-- C5 (amended): in `extract_all_boe`/`extract_folder1_laws` the canceled
marker wins over the amended one; in `boe_parser_new` the amended marker
wins when both are present because its check runs last.  With only the
amended marker both classifiers return `amended`; with neither marker both
return `active`. -/
theorem claim_C5_status_precedence (classes : List Char) :
    (containsSub classes "canceled".data = true →
     containsSub classes "changed-article".data = true →
     statusElif classes = .canceled ∧ statusBoeNew classes = .amended) ∧
    (containsSub classes "canceled".data = false →
     containsSub classes "changed-article".data = true →
     statusElif classes = .amended ∧ statusBoeNew classes = .amended) ∧
    (containsSub classes "canceled".data = false →
     containsSub classes "changed-article".data = false →
     statusElif classes = .active ∧ statusBoeNew classes = .active) := by
  unfold statusElif statusBoeNew
  refine ⟨?_, ?_, ?_⟩ <;> intro h1 h2 <;> simp [h1, h2]

/-- Witness for C5: concrete class strings instantiating the three cases.-/
theorem claim_C5_witness :
    statusElif "article_item canceled changed-article".data = .canceled ∧
    statusElif "article_item changed-article".data = .amended ∧
    statusBoeNew "article_item".data = .active :=
  ⟨((claim_C5_status_precedence _).1 (by decide) (by decide)).1,
   ((claim_C5_status_precedence _).2.1 (by decide) (by decide)).1,
   ((claim_C5_status_precedence _).2.2 (by decide) (by decide)).2⟩

/-! ## Paragraph structurers (claims C7, C8, C10)

Regex matchers of `extract_all_boe.py` (`_RE_NUM`, `_RE_LET`, `_RE_ORD`,
`_make_marker`, `_paras_from_text`) and of `boe_parser_new.py`
(`para_pattern`, `definition_pattern`, `extract_paragraphs`,
`extract_paragraphs_from_html`).  All matchers are applied to single lines
(the call sites split on newlines first), so `.`/`[^\n]` classes never see
a newline. -/

structure Para where
  marker : List Char
  text : List Char
  level : Nat
deriving Repr, DecidableEq

def isAsciiDigit (c : Char) : Bool := '0' ≤ c && c ≤ '9'

def isArabicDigit (c : Char) : Bool := '٠' ≤ c && c ≤ '٩'

/-- The tail `\s*<dash>\s*(.+)$` of the marker regexes: whitespace, one char
of `dashSet`, then `(.+)` which by backtracking takes the maximal
whitespace prefix that still leaves a non-empty remainder. -/
def markerTail (dashSet : Char → Bool) (r : List Char) : Option (List Char) :=
  let ws := r.takeWhile isSpacePy
  match r.drop ws.length with
  | c :: r2 =>
    if dashSet c then
      let d := r2.dropWhile isSpacePy
      if d ≠ [] then some d
      else
        match r2.getLast? with
        | some lastc => some [lastc]
        | none => none
    else none
  | [] => none

def isNumLetDash (c : Char) : Bool := c = '-' || c = '–' || c = '—' || c = '.'

/-- `_RE_NUM = ^[\(]?([0-9]+|[٠-٩]+)[\)]?\s*[-–—.]\s*(.+)$`; returns
`(group 1, group 2)`. -/
def matchRE_NUM (line : List Char) : Option (List Char × List Char) :=
  let r0 := match line with | '(' :: t => t | _ => line
  let g1 :=
    let dA := r0.takeWhile isAsciiDigit
    if dA ≠ [] then dA else r0.takeWhile isArabicDigit
  if g1 = [] then none
  else
    let r1 := r0.drop g1.length
    let r2 := match r1 with | ')' :: t => t | _ => r1
    match markerTail isNumLetDash r2 with
    | some g2 => some (g1, g2)
    | none => none

/-- `_RE_LET = ^[\(]?([أ-ي]|جـ)[\)]?\s*[-–—.]\s*(.+)$`: a single char of
`[أ-ي]`, falling back to the two-char ligature "جـ". -/
def matchRE_LET (line : List Char) : Option (List Char × List Char) :=
  let r0 := match line with | '(' :: t => t | _ => line
  let tryG1 := fun (g1 : List Char) =>
    let r1 := r0.drop g1.length
    let r2 := match r1 with | ')' :: t => t | _ => r1
    match markerTail isNumLetDash r2 with
    | some g2 => some (g1, g2)
    | none => none
  match r0 with
  | c :: _ =>
    if isArabicLetterRange c then
      match tryG1 [c] with
      | some res => some res
      | none => if isPrefixB "جـ".data r0 then tryG1 "جـ".data else none
    else if isPrefixB "جـ".data r0 then tryG1 "جـ".data else none
  | [] => none

def isOrdDash (c : Char) : Bool := c = ':' || c = '–' || c = '—' || c = '-'

/-- The ordinal words of `_RE_ORD`, without the optional final tanween. -/
def ordBases : List (List Char) :=
  ["أولا".data, "ثانيا".data, "ثالثا".data, "رابعا".data, "خامسا".data,
   "سادسا".data, "سابعا".data, "ثامنا".data, "تاسعا".data, "عاشرا".data]

/-- `_RE_ORD = ^(أولاً?|ثانياً?|…|عاشراً?)\s*[:–—-]\s*(.+)$`. -/
def matchRE_ORD (line : List Char) : Option (List Char × List Char) :=
  ordBases.firstM fun base =>
    if isPrefixB base line then
      let afterBase := line.drop base.length
      let g1rest : List Char × List Char :=
        match afterBase with
        | 'ً' :: t => (base ++ ['ً'], t)
        | _ => (base, afterBase)
      match markerTail isOrdDash g1rest.2 with
      | some g2 => some (g1rest.1, g2)
      | none => none
    else none

def dropTrailingWs (l : List Char) : List Char :=
  (l.reverse.dropWhile isSpacePy).reverse

def isDashVariant (c : Char) : Bool :=
  c = '–' || c = '—' || c = '−' || c = 'ـ' || c = '-'

/-- `re.sub(r"[\s]*[–—−ـ\-][\s]*$", "", raw)`: when the last non-whitespace
char is a dash variant, remove it together with the surrounding trailing
whitespace; otherwise leave the string unchanged. -/
def stripTrailDash (l : List Char) : List Char :=
  let t1 := dropTrailingWs l
  match t1.reverse with
  | c :: _ => if isDashVariant c then dropTrailingWs t1.dropLast else l
  | [] => l

/-- `_make_marker(raw)` (`extract_all_boe.py:152-157`, default
`add_hyphen=True`). -/
def make_marker (raw : List Char) : List Char :=
  stripTrailDash (pyStrip raw) ++ ['-']

/-- One iteration of the `for line in lines` loop of `_paras_from_text`
(`extract_all_boe.py:165-177`): ordinal, then numeral, then letter, else
unmarked. -/
def paraOfLine (line : List Char) : Para :=
  match matchRE_ORD line with
  | some (g1, g2) => ⟨pyStrip g1 ++ [':'], pyStrip g2, 0⟩
  | none =>
    match matchRE_NUM line with
    | some (g1, g2) => ⟨make_marker g1, pyStrip g2, 1⟩
    | none =>
      match matchRE_LET line with
      | some (g1, g2) => ⟨make_marker g1, pyStrip g2, 2⟩
      | none => ⟨[], line, 0⟩

/-- `_paras_from_text(text)` (`extract_all_boe.py:161-180`); `none` models
Python `None`. -/
def paras_from_text : Option (List Char) → List Para
  | none => [⟨[], [], 0⟩]
  | some text =>
    if text = [] then [⟨[], [], 0⟩]
    else
      let lines := ((splitOnPred (· = '\n') text).map pyStrip).filter (· ≠ [])
      let paras := lines.map paraOfLine
      if paras = [] then [⟨[], text, 0⟩] else paras

/-! ### `boe_parser_new.extract_paragraphs` (lines 496-595) -/

/-- The Arabic-letter marker list of `boe_parser_new` (levels). -/
def boeLetterMarkers : List (List Char) :=
  ["أ".data, "ب".data, "ج".data, "د".data, "هـ".data, "و".data, "ز".data,
   "ح".data, "ط".data, "ي".data, "ك".data, "ل".data, "م".data, "ن".data,
   "س".data, "ع".data, "ف".data, "ص".data, "ق".data, "ر".data, "ش".data,
   "ت".data, "ث".data, "خ".data, "ذ".data, "ض".data, "ظ".data, "غ".data,
   "جـ".data]

/-- The ordinal-word marker list of `boe_parser_new` (levels). -/
def boeOrdinalMarkers : List (List Char) :=
  ["أولاً".data, "ثانياً".data, "ثالثاً".data, "رابعاً".data, "خامساً".data,
   "سادساً".data, "سابعاً".data, "ثامناً".data, "تاسعاً".data, "عاشراً".data]

def isDashColon (c : Char) : Bool := c = '-' || c = ':'

/-- `para_pattern =
`^([أ-ي]|جـ|[٠-٩]+|[0-9]+|أولاً|ثانياً|…|عاشراً)\s*[-:]\s*(.+)$`
(`boe_parser_new.py:508`), alternatives tried in source order with
backtracking. -/
def matchBoePara (line : List Char) : Option (List Char × List Char) :=
  let candidates : List (List Char) :=
    (match line with
     | c :: _ => if isArabicLetterRange c then [[c]] else []
     | [] => []) ++
    (if isPrefixB "جـ".data line then ["جـ".data] else []) ++
    (let d := line.takeWhile isArabicDigit; if d ≠ [] then [d] else []) ++
    (let d := line.takeWhile isAsciiDigit; if d ≠ [] then [d] else []) ++
    boeOrdinalMarkers.filter (fun w => isPrefixB w line)
  candidates.firstM fun g1 =>
    match markerTail isDashColon (line.drop g1.length) with
    | some g2 => some (g1, g2)
    | none => none

/-- Level assignment of the marker loop (`boe_parser_new.py:568-576`):
letters are level 2, ordinal words and numerals level 1. -/
def boeLevel (g1 : List Char) : Nat :=
  if boeLetterMarkers.contains g1 then 2 else 1

/-- `definition_pattern = ^([^:]+):$`: a non-empty colon-free prefix
followed by a single final colon. -/
def definitionLineQ (line : List Char) : Bool :=
  match line.reverse with
  | ':' :: rest => rest ≠ [] && rest.all (· ≠ ':')
  | _ => false

/-- The inner `while` of the definitions branch
(`boe_parser_new.py:438-449`... lines 470-481 of `extract_paragraphs`):
skip blank lines; stop (consuming nothing) at the next term line; take the
first non-blank non-term line as the definition WITHOUT consuming it
(the source `break`s before incrementing `i`). -/
def findDef : List (List Char) → (List Char × List (List Char))
  | [] => ([], [])
  | n :: r =>
    let nl := pyStrip n
    if nl = [] then findDef r
    else if definitionLineQ nl then ([], n :: r)
    else (nl, n :: r)

theorem findDef_length_le (ls : List (List Char)) :
    (findDef ls).2.length ≤ ls.length := by
  induction ls with
  | nil => simp [findDef]
  | cons n r ih =>
    unfold findDef
    dsimp only
    split
    · exact Nat.le_trans ih (Nat.le_succ _)
    · split
      · exact Nat.le_refl _
      · exact Nat.le_refl _

/-- The outer `while` of the definitions branch of `extract_paragraphs`
(`boe_parser_new.py:462-496`). -/
def defsLoop : List (List Char) → List Para
  | [] => []
  | l :: rest =>
    let line := pyStrip l
    if line = [] then defsLoop rest
    else if definitionLineQ line then
      let fd := findDef rest
      ⟨pyStrip line.dropLast ++ [':'], fd.1, 0⟩ :: defsLoop fd.2
    else
      (if (pyWords line).length > 3 then [Para.mk [] line 0] else []) ++ defsLoop rest
termination_by ls => ls.length
decreasing_by
  all_goals simp only [List.length_cons]
  all_goals first
    | exact Nat.lt_succ_of_le (findDef_length_le _)
    | exact Nat.lt_succ_of_le (Nat.le_refl _)

/-- `extract_paragraphs(text)` (`boe_parser_new.py:496-595`): definitions
mode when more than two lines are bare terms; otherwise the marker loop,
or plain line splitting when no line carries a marker.  Note that unlike
`_paras_from_text` it returns `[]` on empty input. -/
def extract_paragraphs (text : Option (List Char)) : List Para :=
  match text with
  | none => []
  | some t =>
    if t = [] then []
    else
      let lines := splitOnPred (· = '\n') t
      let hasMarkers := lines.any (fun l => (matchBoePara (pyStrip l)).isSome)
      let hasDefs := (lines.filter (fun l => definitionLineQ (pyStrip l))).length > 2
      if hasDefs then defsLoop lines
      else if !hasMarkers then
        let nonEmpty := (lines.map pyStrip).filter (· ≠ [])
        if nonEmpty.length = 1 then [⟨[], nonEmpty.headD [], 0⟩]
        else nonEmpty.map (fun l => ⟨[], l, 0⟩)
      else
        lines.flatMap fun l =>
          let line := pyStrip l
          if line = [] then []
          else
            match matchBoePara line with
            | some (g1, g2) => [⟨g1 ++ (' ' :: ['-']), pyStrip g2, boeLevel g1⟩]
            | none => if (pyWords line).length > 2 then [Para.mk [] line 0] else []

/-! ### Claims C8 and C10 -/

/-- Shape of a single structured line of `_paras_from_text`: unmarked, or a
level-1/2 marker ending in "-", or a level-0 ordinal marker ending in ":".-/
theorem paraOfLine_shape (line : List Char) :
    (paraOfLine line).marker = [] ∨
    ((paraOfLine line).level = 1 ∧ (paraOfLine line).marker.getLast? = some '-') ∨
    ((paraOfLine line).level = 2 ∧ (paraOfLine line).marker.getLast? = some '-') ∨
    ((paraOfLine line).level = 0 ∧ (paraOfLine line).marker.getLast? = some ':') := by
  unfold paraOfLine
  cases ho : matchRE_ORD line with
  | some pr =>
    obtain ⟨g1, g2⟩ := pr
    simp [ho, List.getLast?_concat]
  | none =>
    simp only [ho]
    cases hn : matchRE_NUM line with
    | some pr =>
      obtain ⟨g1, g2⟩ := pr
      simp [hn, make_marker, List.getLast?_concat]
    | none =>
      simp only [hn]
      cases hl : matchRE_LET line with
      | some pr =>
        obtain ⟨g1, g2⟩ := pr
        simp [hl, make_marker, List.getLast?_concat]
      | none =>
        simp [hl]

/-- Every paragraph of `_paras_from_text` is either an unmarked level-0
fallback or the structuring of one line. -/
theorem mem_paras_from_text (t : Option (List Char)) (p : Para)
    (hp : p ∈ paras_from_text t) :
    (p.marker = [] ∧ p.level = 0) ∨ ∃ line, p = paraOfLine line := by
  cases t with
  | none =>
    simp only [paras_from_text, List.mem_singleton] at hp
    subst hp
    exact Or.inl ⟨rfl, rfl⟩
  | some text =>
    simp only [paras_from_text] at hp
    split at hp
    · simp only [List.mem_singleton] at hp
      subst hp
      exact Or.inl ⟨rfl, rfl⟩
    · split at hp
      · simp only [List.mem_singleton] at hp
        subst hp
        exact Or.inl ⟨rfl, rfl⟩
      · obtain ⟨line, _, h⟩ := List.mem_map.mp hp
        exact Or.inr ⟨line, h.symm⟩

/-- The level literals of `_paras_from_text` are 0, 1 and 2. -/
theorem paraOfLine_level (line : List Char) :
    (paraOfLine line).level = 0 ∨ (paraOfLine line).level = 1 ∨
    (paraOfLine line).level = 2 := by
  unfold paraOfLine
  cases ho : matchRE_ORD line with
  | some pr =>
    obtain ⟨g1, g2⟩ := pr
    simp [ho]
  | none =>
    simp only [ho]
    cases hn : matchRE_NUM line with
    | some pr =>
      obtain ⟨g1, g2⟩ := pr
      simp [hn]
    | none =>
      simp only [hn]
      cases hl : matchRE_LET line with
      | some pr =>
        obtain ⟨g1, g2⟩ := pr
        simp [hl]
      | none =>
        simp [hl]

/-- C8 (counterexample): on the claim's test input
`"1- نص\nأ- فرع\nب- فرع2"`, `boe_parser_new.extract_paragraphs` (a cited
implementation) does NOT produce the claimed markers `["1-","أ-","ب-"]`:
its markers carry a space before the dash (`marker_text + ' -'`), and its
ordinal-word markers also end in `" -"`, not ":". -/
theorem claim_C8_counterexample :
    extract_paragraphs (some "1- نص\nأ- فرع\nب- فرع2".data)
      ≠ [⟨"1-".data, "نص".data, 1⟩, ⟨"أ-".data, "فرع".data, 2⟩,
         ⟨"ب-".data, "فرع2".data, 2⟩] ∧
    extract_paragraphs (some "1- نص\nأ- فرع\nب- فرع2".data)
      = [⟨"1 -".data, "نص".data, 1⟩, ⟨"أ -".data, "فرع".data, 2⟩,
         ⟨"ب -".data, "فرع2".data, 2⟩] ∧
    (extract_paragraphs (some "أولاً : بند أول له كلمات".data)).map Para.marker
      = ["أولاً -".data] := by
  exact ⟨by decide, by decide, by decide⟩

/-- C8 (amended): `_paras_from_text` structures the test input exactly as
claimed (levels [1,2,2], markers ["1-","أ-","ب-"]), and in general its
numeric/letter markers end with "-" (trailing dash variants stripped
before re-appending) and its ordinal-word markers end with ":";
`boe_parser_new.extract_paragraphs` produces the same levels but puts a
space before the canonical dash and terminates ordinal-word markers with
" -" as well. -/
theorem claim_C8_marker_normalization :
    paras_from_text (some "1- نص\nأ- فرع\nب- فرع2".data)
      = [⟨"1-".data, "نص".data, 1⟩, ⟨"أ-".data, "فرع".data, 2⟩,
         ⟨"ب-".data, "فرع2".data, 2⟩] ∧
    (extract_paragraphs (some "1- نص\nأ- فرع\nب- فرع2".data)).map Para.level
      = [1, 2, 2] ∧
    (∀ (t : Option (List Char)) (p : Para), p ∈ paras_from_text t →
      p.marker = [] ∨ (p.level = 1 ∧ p.marker.getLast? = some '-') ∨
      (p.level = 2 ∧ p.marker.getLast? = some '-') ∨
      (p.level = 0 ∧ p.marker.getLast? = some ':')) := by
  refine ⟨by decide, by decide, ?_⟩
  intro t p hp
  rcases mem_paras_from_text t p hp with ⟨hm, _⟩ | ⟨line, rfl⟩
  · exact Or.inl hm
  · exact paraOfLine_shape line

/-- Witness for C8: the marker-shape property at a concrete ordinal line. -/
theorem claim_C8_witness :
    (Para.mk "أولاً:".data "بند".data 0 ∈ paras_from_text (some "أولاً: بند".data)) ∧
    ((Para.mk "أولاً:".data "بند".data 0).marker = [] ∨
     ((Para.mk "أولاً:".data "بند".data 0).level = 1 ∧
      (Para.mk "أولاً:".data "بند".data 0).marker.getLast? = some '-') ∨
     ((Para.mk "أولاً:".data "بند".data 0).level = 2 ∧
      (Para.mk "أولاً:".data "بند".data 0).marker.getLast? = some '-') ∨
     ((Para.mk "أولاً:".data "بند".data 0).level = 0 ∧
      (Para.mk "أولاً:".data "بند".data 0).marker.getLast? = some ':')) :=
  ⟨by decide,
   claim_C8_marker_normalization.2.2 (some "أولاً: بند".data)
     (Para.mk "أولاً:".data "بند".data 0) (by decide)⟩

/-- C10: `_paras_from_text` is total, never returns an empty list, every
produced level is 0, 1 or 2, and absent (`None`) or empty input yields
exactly one paragraph `{marker: "", text: "", level: 0}`. -/
theorem claim_C10_paras_total :
    (∀ t : Option (List Char), paras_from_text t ≠ []) ∧
    (∀ (t : Option (List Char)) (p : Para), p ∈ paras_from_text t →
      p.level = 0 ∨ p.level = 1 ∨ p.level = 2) ∧
    paras_from_text none = [⟨[], [], 0⟩] ∧
    paras_from_text (some []) = [⟨[], [], 0⟩] := by
  refine ⟨?_, ?_, by decide, by decide⟩
  · intro t
    cases t with
    | none => simp [paras_from_text]
    | some text =>
      simp only [paras_from_text]
      split
      · simp
      · split
        · simp
        · assumption
  · intro t p hp
    rcases mem_paras_from_text t p hp with ⟨_, hl⟩ | ⟨line, rfl⟩
    · exact Or.inl hl
    · exact paraOfLine_level line

/-! ## DOM-path paragraph extraction and cross-check (claim C7)

`extract_all_boe._parse_article` (lines 449-454) and
`extract_folder1_laws._parse_article` (lines 563-565) compare the summed
DOM paragraph text length against half the plain-text rendering and
recompute from text when it falls below (`dom_len < len(text) * 0.5`,
exactly `2 * dom_len < len(text)` on integers).
`boe_parser_new.extract_paragraphs_from_html` (lines 270-450) instead
falls back to text extraction only when its DOM walk produced no
paragraphs at all. -/

/-- A child of an `HTMLContainer` as walked by
`extract_paragraphs_from_html`: a direct string, a `<p>` (with `<br>`
already rendered as newlines, as the source's copy-and-replace does), an
`<ol>` whose `<li>` items are given as their `<br>`-split lines, or any
other element (skipped by the walk but visible to `get_text`). -/
inductive HElem where
  | textNode : List Char → HElem
  | pElem : List Char → HElem
  | olElem : List (List (List Char)) → HElem
  | otherElem : List Char → HElem
deriving Repr, DecidableEq

/-- The strings `get_text` sees below one child. -/
def helemStrings : HElem → List (List Char)
  | .textNode s => [s]
  | .pElem s => [s]
  | .olElem lis => lis.flatMap id
  | .otherElem s => [s]

/-- `html_container.get_text(separator='\n', strip=True)`: every descendant
string stripped, empties dropped, joined with newlines. -/
def containerText (ch : List HElem) : List Char :=
  joinSep '\n' (((ch.flatMap helemStrings).map pyStrip).filter (· ≠ []))

def takeBeforeColon (l : List Char) : List Char := l.takeWhile (· ≠ ':')

/-- `numbered_pattern = ^([0-9]+|[٠-٩]+|[أ-ي]|جـ)\s*[-:]\s*(.+)$`
(`boe_parser_new.py:313`). -/
def matchNumberedHtml (line : List Char) : Option (List Char × List Char) :=
  let candidates : List (List Char) :=
    (let d := line.takeWhile isAsciiDigit; if d ≠ [] then [d] else []) ++
    (let d := line.takeWhile isArabicDigit; if d ≠ [] then [d] else []) ++
    (match line with
     | c :: _ => if isArabicLetterRange c then [[c]] else []
     | [] => []) ++
    (if isPrefixB "جـ".data line then ["جـ".data] else [])
  candidates.firstM fun g1 =>
    (markerTail isDashColon (line.drop g1.length)).map (fun g2 => (g1, g2))

/-- `letter_pattern = ^([أ-ي]|جـ)\s*-\s*(.+)$` (`boe_parser_new.py:409`). -/
def matchLetterDashOnly (line : List Char) : Option (List Char × List Char) :=
  let candidates : List (List Char) :=
    (match line with
     | c :: _ => if isArabicLetterRange c then [[c]] else []
     | [] => []) ++
    (if isPrefixB "جـ".data line then ["جـ".data] else [])
  candidates.firstM fun g1 =>
    (markerTail (· = '-') (line.drop g1.length)).map (fun g2 => (g1, g2))

/-- The `<p>` branch of `extract_paragraphs_from_html`
(`boe_parser_new.py:296-380`): definitions when more than two short-term
colon lines and more than three lines, numbered items when at least two
lines match the numbered pattern, else one normalized paragraph. -/
def processP (s : List Char) : List Para :=
  let lines := ((splitOnPred (· = '\n') s).map pyStrip).filter (· ≠ [])
  let defCount := (lines.filter fun line =>
    line.contains ':' && (pyWords (takeBeforeColon line)).length ≤ 3).length
  let numberedCount := (lines.filter fun line => (matchNumberedHtml line).isSome).length
  if defCount > 2 ∧ lines.length > 3 then
    lines.enum.flatMap fun p =>
      let i := p.1
      let line := p.2
      if line.contains ':' then
        let p0 := takeBeforeColon line
        let p1 := line.drop (p0.length + 1)
        if (pyWords p0).length ≤ 3 then [Para.mk (pyStrip p0 ++ [':']) (pyStrip p1) 0]
        else [Para.mk [] line 0]
      else if i > 0 then [Para.mk [] line 0]
      else []
  else if numberedCount ≥ 2 then
    let intro := lines.takeWhile (fun l => (matchNumberedHtml l).isNone)
    (if intro ≠ [] then [Para.mk [] (joinSep ' ' intro) 0] else []) ++
    lines.flatMap fun line =>
      match matchNumberedHtml line with
      | some (g1, g2) =>
        [Para.mk (g1 ++ (' ' :: ['-'])) (pyStrip g2)
          (if boeLetterMarkers.contains g1 then 2 else 1)]
      | none => []
  else
    let fullText := collapseLine s
    if fullText ≠ [] then [Para.mk [] fullText 0] else []

def natToChars (n : Nat) : List Char := (toString n).data

/-- One `<li>` of the `<ol>` branch (`boe_parser_new.py:382-450`):
the first line is the level-1 item (colon or following letter line strips
its trailing colons), remaining lines become level-2 letter items or
unmarked level-2 continuations. -/
def processLi (idx : Nat) (rawLines : List (List Char)) : List Para :=
  let lines := (rawLines.map pyStrip).filter (· ≠ [])
  match lines with
  | [] => []
  | main :: restLines =>
    let hasSub := main.getLast? = some ':' ||
      (match restLines with
       | l2 :: _ => (matchLetterDashOnly l2).isSome
       | [] => false)
    let mainText :=
      if hasSub then pyStrip ((main.reverse.dropWhile (· = ':')).reverse) else main
    Para.mk (natToChars idx ++ (' ' :: ['-'])) mainText 1 ::
    restLines.flatMap fun line =>
      match matchLetterDashOnly line with
      | some (g1, g2) => [Para.mk (g1 ++ (' ' :: ['-'])) (pyStrip g2) 2]
      | none => if line.length > 5 then [Para.mk [] line 2] else []

def processOl (lis : List (List (List Char))) : List Para :=
  (lis.enum.map fun p => processLi (p.1 + 1) p.2).flatten

/-- `extract_paragraphs_from_html(html_container)`
(`boe_parser_new.py:270-450`): walk direct children; fall back to plain
text extraction only when NO paragraph was produced. -/
def extract_paragraphs_from_html (ch : List HElem) : List Para :=
  let paras := ch.flatMap fun e =>
    match e with
    | .textNode s =>
      let t := pyStrip s
      if t ≠ [] ∧ t.length > 10 then [Para.mk [] t 0] else []
    | .pElem s => processP s
    | .olElem lis => processOl lis
    | .otherElem _ => []
  if paras = [] then extract_paragraphs (some (containerText ch)) else paras

/-- The DOM/text cross-check of `extract_all_boe._parse_article` and
`extract_folder1_laws._parse_article`:
`if text_path_a and dom_len < len(text_path_a) * 0.5: paragraphs = _paras_from_text(text_path_a)`. -/
def crossCheckParas (domParas : List Para) (textPath : List Char) : List Para :=
  let domLen := (domParas.map (fun p => p.text.length)).sum
  if textPath ≠ [] ∧ 2 * domLen < textPath.length
  then paras_from_text (some textPath)
  else domParas

/-- C7 (counterexample): `boe_parser_new.extract_paragraphs_from_html`, a
cited implementation, KEEPS a non-empty DOM-derived paragraph list whose
total text length is strictly below half the plain-text rendering of the
container (an ignored child element holds most of the text), instead of
recomputing from the plain text as the claim requires for every article
container. -/
theorem claim_C7_counterexample :
    extract_paragraphs_from_html
        [HElem.pElem "قص".data, HElem.otherElem "نص طويل نسبيا داخل عنصر متجاهل".data]
      = [Para.mk [] "قص".data 0] ∧
    2 * ((extract_paragraphs_from_html
        [HElem.pElem "قص".data, HElem.otherElem "نص طويل نسبيا داخل عنصر متجاهل".data]).map
          (fun p => p.text.length)).sum
      < (containerText
          [HElem.pElem "قص".data, HElem.otherElem "نص طويل نسبيا داخل عنصر متجاهل".data]).length ∧
    extract_paragraphs_from_html
        [HElem.pElem "قص".data, HElem.otherElem "نص طويل نسبيا داخل عنصر متجاهل".data]
      ≠ extract_paragraphs (some (containerText
          [HElem.pElem "قص".data, HElem.otherElem "نص طويل نسبيا داخل عنصر متجاهل".data])) := by
  exact ⟨by decide, by decide, by decide⟩

/-- C7 (amended): in `extract_all_boe._parse_article` and
`extract_folder1_laws._parse_article` the cross-check holds exactly as
claimed: a DOM-derived list whose summed text length is strictly below
half the non-empty plain-text rendering is discarded and recomputed with
`_paras_from_text`, and is kept otherwise; `boe_parser_new`'s DOM walker
falls back only when the DOM list is empty. -/
theorem claim_C7_cross_check (domParas : List Para) (textPath : List Char) :
    (textPath ≠ [] →
      2 * ((domParas.map (fun p => p.text.length)).sum) < textPath.length →
      crossCheckParas domParas textPath = paras_from_text (some textPath)) ∧
    (¬ (textPath ≠ [] ∧
        2 * ((domParas.map (fun p => p.text.length)).sum) < textPath.length) →
      crossCheckParas domParas textPath = domParas) := by
  unfold crossCheckParas
  constructor
  · intro h1 h2
    rw [if_pos ⟨h1, h2⟩]
  · intro h
    rw [if_neg h]

/-- Witness for C7: the cross-check at concrete inputs, both branches. -/
theorem claim_C7_witness :
    crossCheckParas [Para.mk [] "قص".data 0] "نص أطول بكثير من ضعف ذلك".data
      = paras_from_text (some "نص أطول بكثير من ضعف ذلك".data) ∧
    crossCheckParas [Para.mk [] "نص كامل تقريبا".data 0] "نص كامل تقريبا".data
      = [Para.mk [] "نص كامل تقريبا".data 0] :=
  ⟨(claim_C7_cross_check [Para.mk [] "قص".data 0]
      "نص أطول بكثير من ضعف ذلك".data).1 (by decide) (by decide),
   (claim_C7_cross_check [Para.mk [] "نص كامل تقريبا".data 0]
      "نص كامل تقريبا".data).2 (by decide)⟩

/-! ## Quality flags (claim C9)

`extract_all_boe._parse_article` lines 474-482 and
`extract_folder1_laws._parse_article` lines 586-597 (identical logic). -/

/-- `re.findall(r"المادة\s+(ال[أ-ي]+)", text)`: one match attempt, returning
the number of chars consumed. -/
def matchScrambleAt (s : List Char) : Option Nat :=
  if isPrefixB "المادة".data s then
    let r1 := s.drop ("المادة".data).length
    let ws := r1.takeWhile isSpacePy
    if ws = [] then none
    else
      let r2 := r1.drop ws.length
      if isPrefixB "ال".data r2 then
        let run := (r2.drop 2).takeWhile isArabicLetterRange
        if run = [] then none
        else some (("المادة".data).length + ws.length + 2 + run.length)
      else none
  else none

/-- Non-overlapping left-to-right match count (`re.findall` length);
`fuel` is called with the input length, enough since every step consumes
at least one char. -/
def countScrambleAux : Nat → List Char → Nat
  | 0, _ => 0
  | fuel + 1, s =>
    match s with
    | [] => 0
    | _ :: t =>
      match matchScrambleAt s with
      | some consumed => 1 + countScrambleAux fuel (s.drop consumed)
      | none => countScrambleAux fuel t

def countScramble (s : List Char) : Nat := countScrambleAux s.length s

/-- The quality-gate block of `_parse_article`: `suspected_short` for a
non-empty, non-canceled text whose stripped length is below 20, and
`suspected_scramble` for more than one inner "article N" heading when the
article number resolved. -/
def qualityFlags (text : List Char) (status : ArticleStatus)
    (number : Option Nat) : List (List Char) :=
  (if text ≠ [] ∧ (pyStrip text).length < 20 ∧ status ≠ ArticleStatus.canceled
   then ["suspected_short".data] else []) ++
  (if text ≠ [] ∧ number.isSome ∧ countScramble text > 1
   then ["suspected_scramble".data] else [])

/-- C9: `suspected_short` is present exactly when the body text is
non-empty, its stripped length is below the 20-char threshold, and the
status is not canceled; in particular a canceled article is never flagged
`suspected_short`.  The flags are a pure function of (text, status,
number) and touch nothing else of the article record. -/
theorem claim_C9_suspected_short (text : List Char) (status : ArticleStatus)
    (number : Option Nat) :
    ("suspected_short".data ∈ qualityFlags text status number ↔
      text ≠ [] ∧ (pyStrip text).length < 20 ∧ status ≠ ArticleStatus.canceled) ∧
    (status = ArticleStatus.canceled →
      "suspected_short".data ∉ qualityFlags text status number) := by
  have hne : "suspected_short".data ≠ "suspected_scramble".data := by decide
  constructor
  · by_cases h1 : text ≠ [] ∧ (pyStrip text).length < 20 ∧ status ≠ ArticleStatus.canceled <;>
      by_cases h2 : text ≠ [] ∧ number.isSome ∧ countScramble text > 1 <;>
      simp [qualityFlags, h1, h2, hne]
  · intro hc
    subst hc
    by_cases h2 : text ≠ [] ∧ number.isSome ∧ countScramble text > 1 <;>
      simp [qualityFlags, h2, hne]

/-- Witness for C9: a 10-char active body is flagged, the identical
canceled body is not. -/
theorem claim_C9_witness :
    "suspected_short".data ∈ qualityFlags "نص من عشرة".data ArticleStatus.active none ∧
    "suspected_short".data ∉ qualityFlags "نص من عشرة".data ArticleStatus.canceled none :=
  ⟨(claim_C9_suspected_short "نص من عشرة".data ArticleStatus.active none).1.mpr (by decide),
   (claim_C9_suspected_short "نص من عشرة".data ArticleStatus.canceled none).2 rfl⟩

/-! ## Substring machinery for the popup-noninterference claim (C6)

`containsSub` is related to `List.IsInfix`, and containment is traced
backwards through the separator-joins and whitespace clean-up used to
build `original_text`. -/

theorem prefToInf {m l : List Char} (h : m <+: l) : m <:+: l :=
  List.IsPrefix.isInfix h

theorem infToCons {m l : List Char} (a : Char) (h : m <:+: l) : m <:+: a :: l :=
  List.infix_cons h

theorem nilPref (l : List Char) : [] <+: l := ⟨l, rfl⟩

theorem isPrefixB_iff (pre l : List Char) : isPrefixB pre l = true ↔ pre <+: l := by
  induction pre generalizing l with
  | nil => simp [isPrefixB, nilPref]
  | cons a x ih =>
    cases l with
    | nil =>
      simp only [isPrefixB, Bool.false_eq_true, false_iff]
      intro h
      obtain ⟨t, ht⟩ := h
      exact List.cons_ne_nil a (x ++ t) ht
    | cons b y =>
      simp [isPrefixB, Bool.and_eq_true, ih, List.cons_prefix_cons]

theorem containsSub_iff (hay pat : List Char) :
    containsSub hay pat = true ↔ pat <:+: hay := by
  induction hay with
  | nil =>
    simp only [containsSub, Bool.or_false, isPrefixB_iff, List.infix_nil]
    exact ⟨fun h => List.eq_nil_of_prefix_nil h, fun h => h ▸ nilPref []⟩
  | cons a t ih =>
    simp only [containsSub, Bool.or_eq_true, isPrefixB_iff, ih]
    rw [List.infix_cons_iff]

/-- A pattern avoiding `c` that is a prefix of `z ++ c :: y` is a prefix
of `z`. -/
theorem prefix_before_sep {c : Char} {m z y : List Char} (hc : c ∉ m)
    (h : m <+: z ++ c :: y) : m <+: z := by
  induction z generalizing m with
  | nil =>
    cases m with
    | nil => exact nilPref []
    | cons d m' =>
      rw [List.nil_append] at h
      rw [List.cons_prefix_cons] at h
      exact absurd (h.1 ▸ List.mem_cons_self d m') hc
  | cons b z' ih =>
    cases m with
    | nil => exact nilPref _
    | cons d m' =>
      rw [List.cons_append, List.cons_prefix_cons] at h
      have hm' : m' <+: z' := ih (fun hin => hc (List.mem_cons_of_mem d hin)) h.2
      rw [List.cons_prefix_cons]
      exact ⟨h.1, hm'⟩

/-- A pattern avoiding `c` that is an infix of `x ++ c :: y` lies wholly in
`x` or wholly in `y`. -/
theorem infix_split_sep {c : Char} {m x y : List Char} (hc : c ∉ m)
    (h : m <:+: x ++ c :: y) : m <:+: x ∨ m <:+: y := by
  induction x generalizing m with
  | nil =>
    rw [List.nil_append, List.infix_cons_iff] at h
    rcases h with h | h
    · cases m with
      | nil => exact Or.inl (nilPref [] |> prefToInf)
      | cons d m' =>
        rw [List.cons_prefix_cons] at h
        exact absurd (h.1 ▸ List.mem_cons_self d m') hc
    · exact Or.inr h
  | cons b x' ih =>
    rw [List.cons_append, List.infix_cons_iff] at h
    rcases h with h | h
    · have : m <+: b :: x' := by
        have hz : m <+: (b :: x') ++ c :: y := by
          rw [List.cons_append]
          exact h
        exact prefix_before_sep hc hz
      exact Or.inl (prefToInf this)
    · rcases ih hc h with h2 | h2
      · exact Or.inl (infToCons b h2)
      · exact Or.inr h2

/-- An infix of a `joinSep` whose pattern is non-empty and avoids the
separator is an infix of one of the pieces. -/
theorem mem_of_infix_joinSep {c : Char} {m : List Char} (hm : m ≠ [])
    (hc : c ∉ m) : ∀ xs : List (List Char),
    m <:+: joinSep c xs → ∃ x ∈ xs, m <:+: x := by
  intro xs
  induction xs with
  | nil =>
    intro h
    rw [joinSep] at h
    exact absurd (List.eq_nil_of_infix_nil h) hm
  | cons x rest ih =>
    intro h
    cases rest with
    | nil =>
      rw [joinSep] at h
      exact ⟨x, List.mem_singleton_self x, h⟩
    | cons y rest' =>
      rw [joinSep] at h
      rcases infix_split_sep hc h with h1 | h1
      · exact ⟨x, List.mem_cons_self _ _, h1⟩
      · obtain ⟨z, hz, hz2⟩ := ih h1
        exact ⟨z, List.mem_cons_of_mem x hz, hz2⟩

/-- The pieces of `splitOnPred`: the head is a prefix of the input, the
rest are infixes. -/
theorem splitOnPred_shape (p : Char → Bool) (s : List Char) :
    ∃ x xs, splitOnPred p s = x :: xs ∧ x <+: s ∧ ∀ y ∈ xs, y <:+: s := by
  induction s with
  | nil => exact ⟨[], [], rfl, nilPref [], by simp⟩
  | cons a t ih =>
    obtain ⟨x, xs, hsplit, hx, hxs⟩ := ih
    by_cases hp : p a = true
    · refine ⟨[], splitOnPred p t, ?_, nilPref _, ?_⟩
      · simp [splitOnPred, hp]
      · intro y hy
        rw [hsplit] at hy
        rcases List.mem_cons.mp hy with h | h
        · exact infToCons a (h ▸ prefToInf hx)
        · exact infToCons a (hxs y h)
    · refine ⟨a :: x, xs, ?_, ?_, ?_⟩
      · simp [splitOnPred, hp, hsplit]
      · rw [List.cons_prefix_cons]
        exact ⟨rfl, hx⟩
      · intro y hy
        exact infToCons a (hxs y hy)

theorem mem_splitOnPred_inf (p : Char → Bool) (s : List Char) :
    ∀ x ∈ splitOnPred p s, x <:+: s := by
  obtain ⟨x, xs, hsplit, hx, hxs⟩ := splitOnPred_shape p s
  intro y hy
  rw [hsplit] at hy
  rcases List.mem_cons.mp hy with h | h
  · exact h ▸ prefToInf hx
  · exact hxs y h

theorem mem_pyWords_inf (l : List Char) : ∀ w ∈ pyWords l, w <:+: l := by
  intro w hw
  exact mem_splitOnPred_inf isSpacePy l w (List.mem_of_mem_filter hw)

/-- Whitespace clean-up cannot create a new occurrence of a non-empty
whitespace-free pattern. -/
theorem not_infix_cleanLines {m s : List Char} (hm : m ≠ [])
    (hws : ∀ ch ∈ m, isSpacePy ch = false)
    (h : ¬ m <:+: s) : ¬ m <:+: cleanLines s := by
  have hnl : '\n' ∉ m := fun hin => by simpa [isSpacePy] using hws '\n' hin
  have hsp : ' ' ∉ m := fun hin => by simpa [isSpacePy] using hws ' ' hin
  intro hcl
  unfold cleanLines at hcl
  obtain ⟨y, hy, hy2⟩ := mem_of_infix_joinSep hm hnl _ hcl
  obtain ⟨line, hline, hline2⟩ := List.mem_map.mp (List.mem_of_mem_filter hy)
  subst hline2
  unfold collapseLine at hy2
  obtain ⟨w, hw, hw2⟩ := mem_of_infix_joinSep hm hsp _ hy2
  have h1 : m <:+: line := List.IsInfix.trans hw2 (mem_pyWords_inf line w hw)
  have h2 : line <:+: s := mem_splitOnPred_inf _ s line hline
  exact h (List.IsInfix.trans h1 h2)

/-! ## DOM subtree model for container selection (claim C6)

`parse_article` (`boe_parser_new.py:128-173`) and
`_parse_article` (`extract_all_boe.py:441-447`) take the first
`div.HTMLContainer` of `find_all` (document preorder) that has no
`div.popup-list` ancestor (`find_parent`), then render `original_text`
from all its descendant strings (`get_text(separator=' ')` followed by the
per-line whitespace clean-up). -/

inductive Node where
  | text : List Char → Node
  | elem : List Char → List (List Char) → List Node → Node
deriving Repr

def isPopupDiv (tag : List Char) (classes : List (List Char)) : Bool :=
  tag = "div".data && classes.contains "popup-list".data

def isContainerDiv (tag : List Char) (classes : List (List Char)) : Bool :=
  tag = "div".data && classes.contains "HTMLContainer".data

mutual

/-- All descendant strings, in document order (`get_text` sees these). -/
def fragments : Node → List (List Char)
  | .text s => [s]
  | .elem _ _ ch => fragmentsL ch

def fragmentsL : List Node → List (List Char)
  | [] => []
  | n :: ns => fragments n ++ fragmentsL ns

end

mutual

/-- `find_all('div', class_='HTMLContainer')` filtered by
`find_parent('div', class_='popup-list') is None`: preorder candidates
with no popup ancestor; `ip` records whether a popup ancestor was seen. -/
def cands (ip : Bool) : Node → List Node
  | .text _ => []
  | .elem t cls ch =>
    (if !ip && isContainerDiv t cls then [Node.elem t cls ch] else []) ++
    candsL (ip || isPopupDiv t cls) ch

def candsL (ip : Bool) : List Node → List Node
  | [] => []
  | n :: ns => cands ip n ++ candsL ip ns

end

mutual

/-- Strings that do NOT sit inside any popup region. -/
def nonPopupTexts (ip : Bool) : Node → List (List Char)
  | .text s => if ip then [] else [s]
  | .elem t cls ch => nonPopupTextsL (ip || isPopupDiv t cls) ch

def nonPopupTextsL (ip : Bool) : List Node → List (List Char)
  | [] => []
  | n :: ns => nonPopupTexts ip n ++ nonPopupTextsL ip ns

end

mutual

/-- No popup region at or below this node. -/
def noPopupInside : Node → Bool
  | .text _ => true
  | .elem t cls ch => !isPopupDiv t cls && noPopupInsideL ch

def noPopupInsideL : List Node → Bool
  | [] => true
  | n :: ns => noPopupInside n && noPopupInsideL ns

end

/-- The raw-text container chosen by `parse_article` for an article
subtree: first non-popup `HTMLContainer` among the descendants. -/
def selectContainer : Node → Option Node
  | .text _ => none
  | .elem t cls ch => (candsL (isPopupDiv t cls) ch).head?

/-- `original_text` of the article: `get_text(separator=' ')` over the
selected container followed by the line clean-up. -/
def originalTextOf (root : Node) : Option (List Char) :=
  (selectContainer root).map fun c => cleanLines (joinSep ' ' (fragments c))

mutual

theorem nonPopupTexts_eq_fragments :
    ∀ n : Node, noPopupInside n = true → nonPopupTexts false n = fragments n
  | .text _, _ => rfl
  | .elem t cls ch, h => by
    unfold noPopupInside at h
    rw [Bool.and_eq_true] at h
    unfold nonPopupTexts fragments
    rw [Bool.false_or]
    have hp : isPopupDiv t cls = false := by
      rcases h with ⟨h1, _⟩
      cases hpp : isPopupDiv t cls
      · rfl
      · rw [hpp] at h1
        exact absurd h1 (by decide)
    rw [hp]
    exact nonPopupTextsL_eq_fragmentsL ch h.2

theorem nonPopupTextsL_eq_fragmentsL :
    ∀ l : List Node, noPopupInsideL l = true → nonPopupTextsL false l = fragmentsL l
  | [], _ => rfl
  | n :: ns, h => by
    unfold noPopupInsideL at h
    rw [Bool.and_eq_true] at h
    unfold nonPopupTextsL fragmentsL
    rw [nonPopupTexts_eq_fragments n h.1, nonPopupTextsL_eq_fragmentsL ns h.2]

end

mutual

theorem cands_fragments_sub :
    ∀ (n : Node) (ip : Bool) (c : Node), c ∈ cands ip n →
      noPopupInside c = true → ∀ s ∈ fragments c, s ∈ nonPopupTexts ip n
  | .text _, _, _, hc, _, _, hs => by
    unfold cands at hc
    exact absurd hc (List.not_mem_nil _)
  | .elem t cls ch, ip, c, hc, hnp, s, hs => by
    unfold cands at hc
    rcases List.mem_append.mp hc with h | h
    · by_cases hcond : (!ip && isContainerDiv t cls) = true
      · rw [if_pos hcond] at h
        have hceq : c = Node.elem t cls ch := List.mem_singleton.mp h
        have hip : ip = false := by
          rw [Bool.and_eq_true] at hcond
          rcases hcond with ⟨h1, _⟩
          cases hip : ip
          · rfl
          · rw [hip] at h1
            exact absurd h1 (by decide)
        subst hip
        subst hceq
        rw [nonPopupTexts_eq_fragments _ hnp]
        exact hs
      · rw [if_neg hcond] at h
        exact absurd h (List.not_mem_nil _)
    · unfold nonPopupTexts
      exact candsL_fragments_sub ch (ip || isPopupDiv t cls) c h hnp s hs

theorem candsL_fragments_sub :
    ∀ (l : List Node) (ip : Bool) (c : Node), c ∈ candsL ip l →
      noPopupInside c = true → ∀ s ∈ fragments c, s ∈ nonPopupTextsL ip l
  | [], _, _, hc, _, _, _ => by
    unfold candsL at hc
    exact absurd hc (List.not_mem_nil _)
  | n :: ns, ip, c, hc, hnp, s, hs => by
    unfold candsL at hc
    unfold nonPopupTextsL
    rcases List.mem_append.mp hc with h | h
    · exact List.mem_append.mpr (Or.inl (cands_fragments_sub n ip c h hnp s hs))
    · exact List.mem_append.mpr (Or.inr (candsL_fragments_sub ns ip c h hnp s hs))

end

/-- C6 (amended): the container selected for `original_text` never has a
popup ancestor (exclusion by ancestry), and whenever additionally no popup
region sits INSIDE the selected container, a non-empty whitespace-free
string occurring only inside popup regions — such as "POPUP_MARKER" —
cannot appear in `original_text`.  (The counterexample shows the inside
case is a real exception, so the hypothesis `noPopupInside` is needed.) -/
theorem claim_C6_popup_noninterference (root c : Node) (m : List Char)
    (hm : m ≠ []) (hws : ∀ ch ∈ m, isSpacePy ch = false)
    (hsel : selectContainer root = some c)
    (hnp : noPopupInside c = true)
    (honly : ∀ s ∈ nonPopupTexts false root, containsSub s m = false) :
    originalTextOf root = some (cleanLines (joinSep ' ' (fragments c))) ∧
    containsSub (cleanLines (joinSep ' ' (fragments c))) m = false := by
  constructor
  · unfold originalTextOf
    rw [hsel]
    rfl
  · cases root with
    | text s =>
      have hsel2 : (none : Option Node) = some c := hsel
      exact absurd hsel2 (by simp)
    | elem t cls ch =>
      have hmem : c ∈ candsL (isPopupDiv t cls) ch := by
        have hsel2 : (candsL (isPopupDiv t cls) ch).head? = some c := hsel
        cases hcl : candsL (isPopupDiv t cls) ch with
        | nil =>
          rw [hcl] at hsel2
          exact absurd hsel2 (by simp)
        | cons x xs =>
          rw [hcl] at hsel2
          simp only [List.head?_cons, Option.some.injEq] at hsel2
          rw [← hsel2]
          exact List.mem_cons_self x xs
      have hfragclean : ∀ s ∈ fragments c, containsSub s m = false := by
        intro s hs
        have hin : s ∈ nonPopupTextsL (isPopupDiv t cls) ch :=
          candsL_fragments_sub ch (isPopupDiv t cls) c hmem hnp s hs
        have : s ∈ nonPopupTexts false (Node.elem t cls ch) := by
          unfold nonPopupTexts
          rw [Bool.false_or]
          exact hin
        exact honly s this
      have hsp : ' ' ∉ m := fun hin => by simpa [isSpacePy] using hws ' ' hin
      have hjoin : ¬ m <:+: joinSep ' ' (fragments c) := by
        intro hj
        obtain ⟨x, hx, hx2⟩ := mem_of_infix_joinSep hm hsp _ hj
        have := hfragclean x hx
        rw [← containsSub_iff x m] at hx2
        rw [this] at hx2
        exact absurd hx2 (by decide)
      have hfin := not_infix_cleanLines hm hws hjoin
      cases hres : containsSub (cleanLines (joinSep ' ' (fragments c))) m
      · rfl
      · rw [containsSub_iff] at hres
        exact absurd hres hfin

/-- The synthetic article subtree of the claim's regression test with the
popup as a SIBLING of the text container (the intended layout). -/
def exRootSib : Node :=
  Node.elem "div".data ["article_item".data]
    [Node.elem "div".data ["HTMLContainer".data]
      [Node.text "نص المادة هنا".data],
     Node.elem "div".data ["popup-list".data]
      [Node.elem "div".data ["HTMLContainer".data]
        [Node.text "POPUP_MARKER".data]]]

/-- The synthetic subtree with the popup NESTED INSIDE the first
`HTMLContainer`. -/
def exRootNested : Node :=
  Node.elem "div".data ["article_item".data]
    [Node.elem "div".data ["HTMLContainer".data]
      [Node.text "نص المادة".data,
       Node.elem "div".data ["popup-list".data]
        [Node.elem "div".data ["HTMLContainer".data]
          [Node.text "POPUP_MARKER".data]]]]

/-- C6 (counterexample): when the popup region sits inside the selected
container — a placement the claim explicitly quantifies over
("regardless of where the popup sits in the subtree") — the popup-only
string "POPUP_MARKER" DOES appear in `original_text`: the ancestry filter
only excludes containers below popups, it does not strip popup
descendants out of the chosen container's text. -/
theorem claim_C6_counterexample :
    (∀ s ∈ nonPopupTexts false exRootNested,
      containsSub s "POPUP_MARKER".data = false) ∧
    originalTextOf exRootNested = some "نص المادة POPUP_MARKER".data ∧
    containsSub "نص المادة POPUP_MARKER".data "POPUP_MARKER".data = true := by
  exact ⟨by decide, by decide, by decide⟩

/-- Witness for C6: the sibling-popup layout, where the amended theorem's
hypotheses hold and "POPUP_MARKER" indeed never reaches `original_text`. -/
theorem claim_C6_witness :
    originalTextOf exRootSib
      = some (cleanLines (joinSep ' '
          (fragments (Node.elem "div".data ["HTMLContainer".data]
            [Node.text "نص المادة هنا".data])))) ∧
    containsSub (cleanLines (joinSep ' '
        (fragments (Node.elem "div".data ["HTMLContainer".data]
          [Node.text "نص المادة هنا".data])))) "POPUP_MARKER".data = false :=
  claim_C6_popup_noninterference exRootSib
    (Node.elem "div".data ["HTMLContainer".data]
      [Node.text "نص المادة هنا".data])
    "POPUP_MARKER".data (by decide) (by decide) rfl rfl (by decide)

/-- Witness for C10: the level property at a concrete input. -/
theorem claim_C10_witness :
    (Para.mk "1-".data "نص".data 1 ∈ paras_from_text (some "1- نص".data)) ∧
    ((Para.mk "1-".data "نص".data 1).level = 0 ∨
     (Para.mk "1-".data "نص".data 1).level = 1 ∨
     (Para.mk "1-".data "نص".data 1).level = 2) :=
  ⟨by decide,
   claim_C10_paras_total.2.1 (some "1- نص".data)
     (Para.mk "1-".data "نص".data 1) (by decide)⟩
